import Mathlib

/-!
# A verification development for the DART filing monitor (`main.py`)

Shallow embedding of the cursor/dedup protocol and the text pipeline of the
monitor script.  Python `str` values that only flow as document text are
modelled as their sequence of code points (`List Char`); receipt identifiers
are modelled as `String`, whose Mathlib order is exactly the lexicographic
code-point order that Python (and pandas elementwise `>`) uses on `str`.
Outcomes of HTTP requests, ZIP decoding and the AI backend are inputs to the
embedded functions; a Python exception that the script does not catch is
modelled as an `Except.error` that propagates to the top of the run.
-/

namespace DartMonitor

/-- Python `str` document text, as its sequence of code points. -/
abbrev Text := List Char

/-- One record of the `list.json` response (the fields `main.py` uses). -/
structure Filing where
  rcept_no : String
  report_nm : Text
  corp_name : Text
  flr_nm : Text
  rcept_dt : Text
deriving DecidableEq

/-- Decoded JSON body of the disclosure listing response: a status code and
the (possibly empty) list of filing records (`data.get('list', [])`). -/
structure ListResponse where
  status : String
  list : List Filing
deriving DecidableEq

/-- Outcome of `requests.get` + `res.json()` in `get_recent_filings`.
`raise` covers any exception of the request or of JSON decoding; note the
source wraps neither in `try`. -/
inductive ListingFetch where
  | raise
  | ok (data : ListResponse)
deriving DecidableEq

/-- Outcome of the HTTP download / unzip / decode part of
`fetch_and_extract_dart_content`, matching its `except` clauses:
`requests.exceptions.RequestException`, `zipfile.BadZipFile`, and any other
exception (e.g. the `IndexError` when no member ends in `.xml`). -/
inductive DocFetch where
  | requestException (e : Text)
  | badZipFile
  | otherError (e : Text)
  | ok (xml_content : Text)

/-- Outcome of the chat-completion call in `analyze_content`. -/
inductive AIResult where
  | ok (content : Text)
  | error (e : Text)

/-- Outcome of `requests.post` in `send_telegram`: the call either returns
(any HTTP status; the script ignores the response) or raises. -/
inductive PostOutcome where
  | ok
  | raise
deriving DecidableEq

/-- Exceptions that no handler in `main.py` catches: they abort the run. -/
inductive RunAbort where
  /-- `requests.get` / `res.json()` raised inside `get_recent_filings`. -/
  | listingException
  /-- `df['rcept_dt']` raised `KeyError` on the empty DataFrame built from a
  status-`000` response with an empty `list`. -/
  | pandasKeyError
  /-- `requests.post` raised inside `send_telegram`. -/
  | telegramException
deriving DecidableEq

/-- The external world of one run: every network / parsing outcome the script
can observe, as functions of the request key.  `clean` stands for
`clean_html_for_ai` (BeautifulSoup-based, internally exception-free: it
returns an error string on its own failures), modelled as an oracle because
no claim depends on its internals. -/
structure Env where
  clean : Text → Text
  document : String → DocFetch
  ai : Text → AIResult
  corp_code : String → Option String
  listing : String → ListingFetch
  telegram : Text → PostOutcome

/-- Source: `f"❌ 네트워크 오류 발생: {e}"` -/
def errNetwork (e : Text) : Text := "❌ 네트워크 오류 발생: ".data ++ e

/-- The fixed bad-ZIP error string of `fetch_and_extract_dart_content`. -/
def errBadZip : Text := "❌ 유효하지 않은 ZIP 파일입니다. API Key나 접수번호를 확인해주세요.".data

/-- Source: `f"❌ 알 수 없는 오류 발생: {e}"` -/
def errUnknown (e : Text) : Text := "❌ 알 수 없는 오류 발생: ".data ++ e

/-- Source: `fetch_and_extract_dart_content`: on success the decoded document is
cleaned; each `except` clause returns a short error string instead of
raising. -/
def fetch_and_extract_dart_content (env : Env) (rcept_no : String) : Text :=
  match env.document rcept_no with
  | .ok xml_content => env.clean xml_content
  | .requestException e => errNetwork e
  | .badZipFile => errBadZip
  | .otherError e => errUnknown e

/-- Source: `max_length = 15000` in `analyze_content`. -/
def max_length : Nat := 15000

/-- The marker `"\n...(내용이 너무 길어 생략됨)"` appended on truncation. -/
def truncationMarker : Text := "\n...(내용이 너무 길어 생략됨)".data

/-- The truncation step of `analyze_content`
(`raw_content[:max_length] + marker` when `len(raw_content) > max_length`). -/
def truncateForAI (raw_content : Text) : Text :=
  if raw_content.length > max_length then
    raw_content.take max_length ++ truncationMarker
  else
    raw_content

/-- Source: `f"http://dart.fss.or.kr/dsaf001/main.do?rcpNo={rcept_no}"` -/
def filingLink (rcept_no : String) : Text :=
  "http://dart.fss.or.kr/dsaf001/main.do?rcpNo=".data ++ rcept_no.data

/-- The user prompt built in `analyze_content`. -/
def prompt_text (row : Filing) (content_to_analyze : Text) : Text :=
  "[공시 정보]\n제목: ".data ++ row.report_nm ++
  "\n회사명: ".data ++ row.corp_name ++
  "\n제출인: ".data ++ row.flr_nm ++
  "\n링크: ".data ++ filingLink row.rcept_no ++
  "\n\n[공시 본문 내용 (일부 발췌)]\n".data ++ content_to_analyze ++
  ("\n\n[요청 사항]\n당신은 주식 시장 금융 전문가입니다. 위 공시 내용을 분석하여 다음을 수행하세요:\n" ++
   "1. 이 공시의 핵심 내용을 3줄로 명확하게 요약하세요.\n" ++
   "2. 이 내용이 주가에 미칠 영향(호재/악재/중립)을 판단하고 그 이유를 한 문장으로 설명하세요.\n" ++
   "3. 투자자가 유의해야 할 리스크나 특이사항이 있다면 언급하세요.\n" ++
   "답변은 한국어로 작성하세요.").data

/-- Source: `f"AI 분석 실패: {e}"` -/
def errAIFailed (e : Text) : Text := "AI 분석 실패: ".data ++ e

/-- Source: `analyze_content`: extract, truncate, prompt, one completion; any backend
error becomes the `AI 분석 실패` placeholder instead of raising. -/
def analyze_content (env : Env) (row : Filing) : Text :=
  let raw_content := fetch_and_extract_dart_content env row.rcept_no
  let content_to_analyze := truncateForAI raw_content
  match env.ai (prompt_text row content_to_analyze) with
  | .ok c => c
  | .error e => errAIFailed e

/-- Python `str` comparison `a < b`: lexicographic on code points, i.e. the
list order of the code-point sequences (equal to `String`'s `<`, see
`strLT_iff`). -/
def strLT (a b : String) : Bool := decide (a.data < b.data)

/-- Python `str` comparison `a <= b` (equal to `String`'s `≤`, see
`strLE_iff`). -/
def strLE (a b : String) : Bool := decide (a.data ≤ b.data)

/-- The comparison key of `df.sort_values(by='rcept_no', ascending=True)`. -/
def rceptLE (a b : Filing) : Prop := a.rcept_no ≤ b.rcept_no

instance : DecidableRel rceptLE := fun a b =>
  decidable_of_iff (a.rcept_no.toList ≤ b.rcept_no.toList) (String.le_iff_toList_le).symm

instance : IsTotal Filing rceptLE :=
  ⟨fun a b => le_total a.rcept_no b.rcept_no⟩

instance : IsTrans Filing rceptLE :=
  ⟨fun _ _ _ h h' => le_trans (α := String) h h'⟩

/-- Source: `df.sort_values(by='rcept_no', ascending=True)`: some sorted permutation
of the rows (which one is immaterial — receipt identifiers are globally
unique, so there are no ties). -/
def sortFilings (l : List Filing) : List Filing := l.insertionSort rceptLE

/-- Source: `get_recent_filings`: no `try` guards the request, so a raised exception
propagates; a status-`000` response is converted to a DataFrame — on an empty
`list` the column access `df['rcept_dt']` raises `KeyError` (the empty frame
has no columns), otherwise the rows are sorted ascending by `rcept_no`; any
other status yields the empty DataFrame. -/
def get_recent_filings (resp : ListingFetch) : Except RunAbort (List Filing) :=
  match resp with
  | .raise => .error .listingException
  | .ok data =>
      if data.status = "000" then
        if data.list.isEmpty then .error .pandasKeyError
        else .ok (sortFilings data.list)
      else .ok []

/-- Source: `send_telegram`: a bare `requests.post`, so a raised exception
propagates; the HTTP response itself is ignored. -/
def send_telegram (env : Env) (message : Text) : Except RunAbort Unit :=
  match env.telegram message with
  | .ok => .ok ()
  | .raise => .error .telegramException

/-- The message built for one filing in the loop body of `main`. -/
def notifyMessage (row : Filing) (ai_result : Text) : Text :=
  "🚨 *DART 알림: ".data ++ row.corp_name ++
  "*\n📄 ".data ++ row.report_nm ++
  "\n🔗 [링크 보기](".data ++ filingLink row.rcept_no ++
  ")\n\n📝 *AI 분석 보고서:*\n".data ++ ai_result

/-- The JSON state of `latest_filings.json`: company name ↦ last delivered
receipt identifier.  Modelled extensionally; `none` means the key is absent. -/
abbrev CursorMap := String → Option String

/-- Source: `state.get(corp_name, "00000000000000")`: the all-zeros default cursor. -/
def defaultCursor : String := "00000000000000"

/-- Python dict assignment `m[k] = v`. -/
def setKey (m : CursorMap) (k v : String) : CursorMap :=
  fun p => if p = k then some v else m p

/-- One delivered notification.  `corp_name` records the watch-list name of
the loop iteration that sent it and `rcept_no` the identifier assigned to
the cursor right after sending — both are specification-level observations
of the loop, not extra program state. -/
structure Notification where
  corp_name : String
  rcept_no : String
  message : Text
deriving DecidableEq

/-- The mutable state of one `main` run: the `updated_state` dict plus the
trace of messages handed to `send_telegram`, oldest first. -/
structure RunState where
  updated_state : CursorMap
  sent : List Notification

/-- The notifications produced by delivering the filings `l` for one
company, in list order. -/
def sentFor (env : Env) (corp_name : String) (l : List Filing) : List Notification :=
  l.map fun row =>
    { corp_name := corp_name, rcept_no := row.rcept_no,
      message := notifyMessage row (analyze_content env row) }

/-- The inner `for _, row in new_filings.iterrows()` loop of `main`:
analyze, send, then assign `updated_state[corp_name] = row['rcept_no']`.
A raised exception in `send_telegram` aborts the whole run. -/
def process_filings (env : Env) (corp_name : String) :
    List Filing → RunState → Except RunAbort RunState
  | [], rs => .ok rs
  | row :: rest, rs =>
      let ai_result := analyze_content env row
      let msg := notifyMessage row ai_result
      match send_telegram env msg with
      | .error e => .error e
      | .ok _ =>
          process_filings env corp_name rest
            { updated_state := setKey rs.updated_state corp_name row.rcept_no
              sent := rs.sent ++ [{ corp_name := corp_name, rcept_no := row.rcept_no,
                                    message := msg }] }

/-- Source: `new_filings = df[df['rcept_no'] > last_rcept_no]` where
`last_rcept_no = state.get(corp_name, "00000000000000")`: pandas elementwise
`>` on `str` is the lexicographic code-point comparison, which is exactly
`String`'s order. -/
def new_filings (state : CursorMap) (corp_name : String) (df : List Filing) : List Filing :=
  df.filter fun row => strLT ((state corp_name).getD defaultCursor) row.rcept_no

/-- One iteration of the `for corp_name in companies` loop of `main`:
resolve the code (skip if absent), list recent filings (an uncaught
exception aborts the run), skip on an empty frame or an empty candidate set,
otherwise deliver the candidates.  The cursor is read from the original
`state`, while assignments go to `updated_state` inside `rs`. -/
def process_company (env : Env) (state : CursorMap) (corp_name : String)
    (rs : RunState) : Except RunAbort RunState :=
  match env.corp_code corp_name with
  | none => .ok rs
  | some code =>
      match get_recent_filings (env.listing code) with
      | .error e => .error e
      | .ok df =>
          if df.isEmpty then .ok rs
          else if (new_filings state corp_name df).isEmpty then .ok rs
          else process_filings env corp_name (new_filings state corp_name df) rs

/-- The company loop of `main`, threading the run state. -/
def main_loop (env : Env) (state : CursorMap) :
    List String → RunState → Except RunAbort RunState
  | [], rs => .ok rs
  | corp_name :: rest, rs =>
      match process_company env state corp_name rs with
      | .error e => .error e
      | .ok rs' => main_loop env state rest rs'

/-- A whole `main` run: start from `updated_state = state.copy()` and an
empty delivery trace, loop over the companies; on normal completion the
final `updated_state` is what `json.dump` persists. -/
def main (env : Env) (state : CursorMap) (companies : List String) :
    Except RunAbort RunState :=
  main_loop env state companies { updated_state := state, sent := [] }

/-! ## The corp-code snapshot refresh (`update_corp_code_file`) -/

/-- The files of the `data` directory, by file name. -/
abbrev FS := String → Option Text

/-- The basename of `CORP_CODE_FILE` (`data/corp_codes.xml`). -/
def CORP_CODE_FILE : String := "corp_codes.xml"

/-- Outcome of the download-and-unzip attempt of `update_corp_code_file`.
`raise` covers every exception before extraction starts (request error,
non-2xx status, `BadZipFile`).  `archive members failAt` means the ZIP
opened with the given member list (in `namelist()` order);
`failAt = some (k, part)` means `extractall` raised while processing member
`k`, after fully writing the members before `k`: with `part = some bytes`,
member `k`'s target file had already been opened for writing — CPython's
`zipfile` opens the target `"wb"`, truncating any existing file, before
streaming, so a CRC-32/IO error raised mid-copy leaves the target holding
the partial `bytes` (possibly none at all); with `part = none` the exception
raised before member `k`'s target was opened, leaving it untouched. -/
inductive CorpZipFetch where
  | raise
  | archive (members : List (String × Text)) (failAt : Option (Nat × Option Text))

/-- Source: `z.extractall(DATA_DIR)` for the given members: each member is written
into the data directory under its own name, in order. -/
def writeMembers (members : List (String × Text)) (fs : FS) : FS :=
  members.foldl (fun acc m => fun p => if p = m.1 then some m.2 else acc p) fs

/-- Source: `os.rename(src, dst)` inside one directory. -/
def renameFile (src dst : String) (fs : FS) : FS :=
  fun p => if p = dst then fs src else if p = src then none else fs p

/-- Source: `update_corp_code_file`: everything is inside one `try`, so any failure
is caught and the function returns with whatever the file system holds at
that point: on a failing extraction, the fully-written members plus the
(truncated, partially written) target of the failing member.  On a fully
successful extraction the first member (`z.namelist()[0]`) is renamed onto
`corp_codes.xml`; an empty archive makes `namelist()[0]` raise `IndexError`
after the (vacuous) extraction. -/
def update_corp_code_file (r : CorpZipFetch) (fs : FS) : FS :=
  match r with
  | .raise => fs
  | .archive members failAt =>
      match failAt with
      | some (k, part) =>
          let fsk := writeMembers (members.take k) fs
          match members[k]?, part with
          | some m, some bytes => fun p => if p = m.1 then some bytes else fsk p
          | _, _ => fsk
      | none =>
          let fs' := writeMembers members fs
          match members.head? with
          | none => fs'
          | some m => renameFile m.1 CORP_CODE_FILE fs'

/-! ## Specification-level helper definitions -/

/-- The notifications of a trace sent by the loop iterations for entity `E`. -/
def notifsFor (sent : List Notification) (E : String) : List Notification :=
  sent.filter fun ν => decide (ν.corp_name = E)

/-- The receipt identifiers assigned to `E`'s cursor over a run, in
assignment order (each send is immediately followed by its assignment). -/
def deliveredFor (sent : List Notification) (E : String) : List String :=
  (notifsFor sent E).map (·.rcept_no)

/-- A well-formed DART receipt identifier: 14 code points, all from the
digit range, and not the all-zeros minimum. -/
def realRceptNo (s : String) : Prop :=
  s.data.length = 14 ∧ (∀ c ∈ s.data, '0' ≤ c) ∧ s ≠ defaultCursor

instance (s : String) : Decidable (realRceptNo s) := by
  unfold realRceptNo
  infer_instance

/-! ## Concrete scenario data (the watch-list scenario of the spec) -/

/-- Filing `A`, receipt `20240101000010`. -/
def wF1 : Filing :=
  ⟨"20240101000010", "A".data, "Acme Corp".data, "Acme Corp".data, "20240101".data⟩

/-- Filing `B`, receipt `20240101000020`. -/
def wF2 : Filing :=
  ⟨"20240101000020", "B".data, "Acme Corp".data, "Acme Corp".data, "20240101".data⟩

/-- A concrete clean-run environment: `Acme Corp` resolves to `00123456`,
the listing returns filings `B, A` (unsorted), document extraction fails
with a bad archive, the AI backend errors, and every telegram post
succeeds. -/
def wEnv : Env :=
  { clean := id
    document := fun _ => .badZipFile
    ai := fun _ => .error "backend down".data
    corp_code := fun n => if n = "Acme Corp" then some "00123456" else none
    listing := fun c => if c = "00123456" then .ok ⟨"000", [wF2, wF1]⟩ else .ok ⟨"013", []⟩
    telegram := fun _ => .ok }

/-- Stored cursors at run start: `Acme Corp ↦ 20240101000005`. -/
def wState : CursorMap := fun n => if n = "Acme Corp" then some "20240101000005" else none

/-- The run state `main wEnv wState ["Acme Corp"]` ends in: both filings
delivered in ascending order and the cursor advanced to `B`'s identifier. -/
def wRS : RunState :=
  { updated_state := setKey (setKey wState "Acme Corp" "20240101000010") "Acme Corp" "20240101000020"
    sent := [ { corp_name := "Acme Corp", rcept_no := "20240101000010",
                message := notifyMessage wF1 (analyze_content wEnv wF1) },
              { corp_name := "Acme Corp", rcept_no := "20240101000020",
                message := notifyMessage wF2 (analyze_content wEnv wF2) } ] }

/-- An environment whose listing request raises (network failure): the code
path of `get_recent_filings` with no `try` around `requests.get`. -/
def cEnvListingRaise : Env :=
  { clean := id
    document := fun _ => .badZipFile
    ai := fun _ => .error "backend down".data
    corp_code := fun _ => some "00123456"
    listing := fun _ => .raise
    telegram := fun _ => .ok }

/-- An environment whose notification POST raises (network failure): the
code path of `send_telegram` with no `try` around `requests.post`. -/
def cEnvTelegramRaise : Env :=
  { clean := id
    document := fun _ => .badZipFile
    ai := fun _ => .error "backend down".data
    corp_code := fun n => if n = "Acme Corp" then some "00123456" else none
    listing := fun c => if c = "00123456" then .ok ⟨"000", [wF2, wF1]⟩ else .ok ⟨"013", []⟩
    telegram := fun _ => .raise }

/-! ## Basic lemmas -/

/-- Source: `strLT` is `String`'s strict lexicographic order. -/
theorem strLT_iff (a b : String) : strLT a b = true ↔ a < b := by
  simp [strLT, String.lt_iff_toList_lt, String.toList]

/-- Source: `strLE` is `String`'s lexicographic order. -/
theorem strLE_iff (a b : String) : strLE a b = true ↔ a ≤ b := by
  simp [strLE, String.le_iff_toList_le, String.toList]

/-- Membership in the candidate set: in the fetched frame and strictly above
the cursor. -/
theorem mem_new_filings {state : CursorMap} {corp_name : String} {df : List Filing}
    {row : Filing} :
    row ∈ new_filings state corp_name df ↔
      row ∈ df ∧ (state corp_name).getD defaultCursor < row.rcept_no := by
  simp [new_filings, List.mem_filter, strLT_iff]

/-- The candidate set is a subsequence of the fetched frame. -/
theorem new_filings_sublist (state : CursorMap) (corp_name : String) (df : List Filing) :
    List.Sublist (new_filings state corp_name df) df :=
  List.filter_sublist df

/-- Filtering preserves the ascending order of the frame. -/
theorem new_filings_pairwise {state : CursorMap} {corp_name : String} {df : List Filing}
    (h : df.Pairwise rceptLE) : (new_filings state corp_name df).Pairwise rceptLE :=
  h.filter _

/-- Whenever `get_recent_filings` returns a frame, that frame is sorted
ascending by receipt identifier. -/
theorem get_recent_filings_pairwise {resp : ListingFetch} {df : List Filing}
    (h : get_recent_filings resp = .ok df) : df.Pairwise rceptLE := by
  match resp with
  | .raise => exact absurd h (by simp [get_recent_filings])
  | .ok data =>
      rw [get_recent_filings] at h
      by_cases hst : data.status = "000"
      · rw [if_pos hst] at h
        by_cases hemp : data.list.isEmpty
        · rw [if_pos hemp] at h; exact absurd h (by simp)
        · rw [if_neg hemp] at h
          cases h
          exact List.sorted_insertionSort rceptLE data.list
      · rw [if_neg hst] at h
        cases h
        exact List.Pairwise.nil

/-- Whenever `get_recent_filings` returns a frame, it is either the empty
frame (non-success status) or a permutation of the response rows. -/
theorem get_recent_filings_perm {resp : ListingFetch} {data : ListResponse} {df : List Filing}
    (hr : resp = .ok data) (h : get_recent_filings resp = .ok df) :
    df = [] ∨ df.Perm data.list := by
  subst hr
  rw [get_recent_filings] at h
  by_cases hst : data.status = "000"
  · rw [if_pos hst] at h
    by_cases hemp : data.list.isEmpty
    · rw [if_pos hemp] at h; exact absurd h (by simp)
    · rw [if_neg hemp] at h
      cases h
      exact Or.inr (List.perm_insertionSort rceptLE data.list)
  · rw [if_neg hst] at h
    cases h
    exact Or.inl rfl

/-- A list of characters from the digit range that is not all zeros is
lexicographically above the all-zeros list of the same length. -/
theorem lex_replicate_zero_lt :
    ∀ (l : List Char) (n : Nat), l.length = n → (∀ c ∈ l, '0' ≤ c) →
      l ≠ List.replicate n '0' → List.Lex (· < ·) (List.replicate n '0') l := by
  intro l
  induction l with
  | nil =>
      intro n hlen _ hne
      subst hlen
      simp at hne
  | cons c cs ih =>
      intro n hlen hge hne
      subst hlen
      rw [List.length_cons, List.replicate_succ] at hne ⊢
      by_cases hc : c = '0'
      · subst hc
        refine List.Lex.cons (ih cs.length rfl (fun d hd => hge d (List.mem_cons_of_mem _ hd)) ?_)
        intro hcs
        exact hne (congrArg (List.cons '0') hcs)
      · exact List.Lex.rel (lt_of_le_of_ne (hge c (List.mem_cons_self _ _)) (Ne.symm hc))

/-- Every well-formed receipt identifier is strictly above the all-zeros
default cursor. -/
theorem defaultCursor_lt_of_real {s : String} (h : realRceptNo s) : defaultCursor < s := by
  obtain ⟨hlen, hge, hne⟩ := h
  rw [String.lt_iff_toList_lt]
  have hz : defaultCursor.toList = List.replicate 14 '0' := by decide
  show List.Lex (· < ·) defaultCursor.toList s.toList
  rw [hz]
  refine lex_replicate_zero_lt s.toList 14 hlen hge ?_
  intro habs
  exact hne (String.toList_inj.mp (by rw [habs, hz]))

/-- The truncation step never raises the length above budget + marker. -/
theorem truncateForAI_length (raw : Text) :
    (truncateForAI raw).length ≤ max_length + truncationMarker.length := by
  rw [truncateForAI]
  by_cases h : raw.length > max_length
  · rw [if_pos h]
    simp [List.length_take]
  · rw [if_neg h]
    omega

/-- Above budget, the output is the cut text with the marker appended. -/
theorem truncateForAI_of_long {raw : Text} (h : max_length < raw.length) :
    truncateForAI raw = raw.take max_length ++ truncationMarker := by
  rw [truncateForAI, if_pos h]

/-- At or below budget, the text passes through unchanged. -/
theorem truncateForAI_of_short {raw : Text} (h : raw.length ≤ max_length) :
    truncateForAI raw = raw := by
  rw [truncateForAI, if_neg (by omega)]

/-- The content handed to the summarizer sits inside the prompt. -/
theorem content_infix_prompt (row : Filing) (content : Text) :
    content <:+: prompt_text row content :=
  ⟨"[공시 정보]\n제목: ".data ++ row.report_nm ++ "\n회사명: ".data ++ row.corp_name ++
    "\n제출인: ".data ++ row.flr_nm ++ "\n링크: ".data ++ filingLink row.rcept_no ++
    "\n\n[공시 본문 내용 (일부 발췌)]\n".data,
   ("\n\n[요청 사항]\n당신은 주식 시장 금융 전문가입니다. 위 공시 내용을 분석하여 다음을 수행하세요:\n" ++
    "1. 이 공시의 핵심 내용을 3줄로 명확하게 요약하세요.\n" ++
    "2. 이 내용이 주가에 미칠 영향(호재/악재/중립)을 판단하고 그 이유를 한 문장으로 설명하세요.\n" ++
    "3. 투자자가 유의해야 할 리스크나 특이사항이 있다면 언급하세요.\n" ++
    "답변은 한국어로 작성하세요.").data,
   by simp [prompt_text]⟩

/-- The AI verdict (or its failure placeholder) ends the notification. -/
theorem ai_result_suffix_message (row : Filing) (ai_result : Text) :
    ai_result <:+ notifyMessage row ai_result :=
  ⟨"🚨 *DART 알림: ".data ++ row.corp_name ++ "*\n📄 ".data ++ row.report_nm ++
    "\n🔗 [링크 보기](".data ++ filingLink row.rcept_no ++ ")\n\n📝 *AI 분석 보고서:*\n".data,
   by simp [notifyMessage]⟩

/-! ## Lemmas about the delivery loops -/

/-- Splitting a notification trace at an append. -/
theorem notifsFor_append (a b : List Notification) (E : String) :
    notifsFor (a ++ b) E = notifsFor a E ++ notifsFor b E := by
  simp [notifsFor]

/-- A trace segment from other entities contributes nothing for `E`. -/
theorem notifsFor_eq_nil (t : List Notification) {E : String}
    (h : ∀ ν ∈ t, ν.corp_name ≠ E) : notifsFor t E = [] := by
  simp only [notifsFor, List.filter_eq_nil_iff]
  intro ν hν
  simp [h ν hν]

/-- A trace segment entirely from `E` is kept whole. -/
theorem notifsFor_eq_self (t : List Notification) {E : String}
    (h : ∀ ν ∈ t, ν.corp_name = E) : notifsFor t E = t := by
  rw [notifsFor, List.filter_eq_self]
  intro ν hν
  simp [h ν hν]

/-- When the inner loop returns, its effect is exactly: the per-row cursor
assignments folded left to right, and the per-row notifications appended in
row order. -/
theorem process_filings_ok_eq {env : Env} {c : String} :
    ∀ {l : List Filing} {rs rs' : RunState},
      process_filings env c l rs = .ok rs' →
      rs'.updated_state = l.foldl (fun m row => setKey m c row.rcept_no) rs.updated_state ∧
      rs'.sent = rs.sent ++ sentFor env c l := by
  intro l
  induction l with
  | nil =>
      intro rs rs' h
      cases h
      simp [sentFor]
  | cons row rest ih =>
      intro rs rs' h
      rw [process_filings] at h
      cases htel : env.telegram (notifyMessage row (analyze_content env row)) with
      | raise =>
          simp only [send_telegram, htel] at h
          exact Except.noConfusion h
      | ok =>
          simp only [send_telegram, htel] at h
          obtain ⟨h1, h2⟩ := ih h
          refine ⟨by rw [h1, List.foldl_cons], ?_⟩
          rw [h2]
          simp [sentFor]

/-- With every telegram post succeeding, the inner loop cannot abort. -/
theorem process_filings_total {env : Env} (htel : ∀ m, env.telegram m = .ok)
    (c : String) :
    ∀ (l : List Filing) (rs : RunState), ∃ rs', process_filings env c l rs = .ok rs' := by
  intro l
  induction l with
  | nil => exact fun rs => ⟨rs, rfl⟩
  | cons row rest ih =>
      intro rs
      obtain ⟨rs', h⟩ := ih
        { updated_state := setKey rs.updated_state c row.rcept_no
          sent := rs.sent ++ [{ corp_name := c, rcept_no := row.rcept_no,
                                message := notifyMessage row (analyze_content env row) }] }
      refine ⟨rs', ?_⟩
      rw [process_filings]
      simp only [send_telegram, htel]
      exact h

/-- Folded assignments never touch another key. -/
theorem foldl_setKey_ne {c k : String} (hk : k ≠ c) :
    ∀ (l : List Filing) (m : CursorMap),
      (l.foldl (fun m row => setKey m c row.rcept_no) m) k = m k := by
  intro l
  induction l with
  | nil => intro m; rfl
  | cons row rest ih =>
      intro m
      rw [List.foldl_cons, ih]
      simp [setKey, hk]

/-- The last assignment wins: the folded cursor for `c` is the last row's
identifier. -/
theorem foldl_setKey_getLast :
    ∀ (l : List Filing) (hl : l ≠ []) (m : CursorMap) (c : String),
      (l.foldl (fun m row => setKey m c row.rcept_no) m) c =
        some ((l.getLast hl).rcept_no) := by
  intro l
  induction l with
  | nil => intro hl; exact absurd rfl hl
  | cons row rest ih =>
      intro hl m c
      rw [List.foldl_cons]
      cases rest with
      | nil => simp [setKey, List.getLast]
      | cons r2 rest2 =>
          rw [ih (List.cons_ne_nil _ _) _ c]
          simp [List.getLast_cons]

/-- Inversion for one company iteration: either a skip (state returned
untouched) or a full delivery of the candidate set. -/
theorem process_company_ok_inv {env : Env} {state : CursorMap} {c : String}
    {rs rs' : RunState} (h : process_company env state c rs = .ok rs') :
    rs' = rs ∨
      ∃ code df, env.corp_code c = some code ∧
        get_recent_filings (env.listing code) = .ok df ∧
        new_filings state c df ≠ [] ∧
        process_filings env c (new_filings state c df) rs = .ok rs' := by
  cases hcode : env.corp_code c with
  | none =>
      simp only [process_company, hcode] at h
      cases h
      exact Or.inl rfl
  | some code =>
      cases hdf : get_recent_filings (env.listing code) with
      | error e =>
          simp only [process_company, hcode, hdf] at h
          exact Except.noConfusion h
      | ok df =>
          simp only [process_company, hcode, hdf] at h
          by_cases hemp : df.isEmpty
          · rw [if_pos hemp] at h
            cases h
            exact Or.inl rfl
          · rw [if_neg hemp] at h
            by_cases hnemp : (new_filings state c df).isEmpty
            · rw [if_pos hnemp] at h
              cases h
              exact Or.inl rfl
            · rw [if_neg hnemp] at h
              exact Or.inr ⟨code, df, rfl, hdf, by simpa using hnemp, h⟩

/-- A resolution failure, an empty frame or an empty candidate set skips the
iteration without touching the run state. -/
theorem process_company_skip {env : Env} {state : CursorMap} {c : String}
    (h : env.corp_code c = none ∨
      ∃ code df, env.corp_code c = some code ∧
        get_recent_filings (env.listing code) = .ok df ∧ new_filings state c df = [])
    (rs : RunState) : process_company env state c rs = .ok rs := by
  rcases h with hnone | ⟨code, df, hcode, hdf, hnf⟩
  · simp only [process_company, hnone]
  · simp only [process_company, hcode, hdf]
    by_cases hemp : df.isEmpty
    · rw [if_pos hemp]
    · rw [if_neg hemp, hnf]
      simp

/-- With a resolved code, a successful non-empty listing and a non-empty
candidate set, the iteration is exactly the inner delivery loop. -/
theorem process_company_clean {env : Env} {state : CursorMap} {c code : String}
    {df : List Filing}
    (hcode : env.corp_code c = some code)
    (hdf : get_recent_filings (env.listing code) = .ok df)
    (hne : new_filings state c df ≠ []) (rs : RunState) :
    process_company env state c rs = process_filings env c (new_filings state c df) rs := by
  simp only [process_company, hcode, hdf]
  have hdfne : ¬df.isEmpty := by
    simp only [List.isEmpty_eq_true]
    intro h0
    exact hne (by simp [new_filings, h0])
  rw [if_neg hdfne, if_neg (by simpa using hne)]

/-- Frame conditions of one iteration: other keys untouched; the own key
unchanged or raised above the stored (start-of-run) cursor; the trace grows
only by notifications of this entity, all above the stored cursor. -/
theorem process_company_frame {env : Env} {state : CursorMap} {c : String}
    {rs rs' : RunState} (h : process_company env state c rs = .ok rs') :
    (∀ k, k ≠ c → rs'.updated_state k = rs.updated_state k) ∧
    (rs'.updated_state c = rs.updated_state c ∨
      ∃ v, rs'.updated_state c = some v ∧ (state c).getD defaultCursor < v) ∧
    ∃ tail, rs'.sent = rs.sent ++ tail ∧
      ∀ ν ∈ tail, ν.corp_name = c ∧ (state c).getD defaultCursor < ν.rcept_no := by
  rcases process_company_ok_inv h with rfl | ⟨code, df, hcode, hdf, hne, hpf⟩
  · exact ⟨fun _ _ => rfl, Or.inl rfl, [], by simp, by simp⟩
  · obtain ⟨h1, h2⟩ := process_filings_ok_eq hpf
    refine ⟨?_, ?_, ?_⟩
    · intro k hk
      rw [h1]
      exact foldl_setKey_ne hk _ _
    · refine Or.inr ⟨((new_filings state c df).getLast hne).rcept_no, ?_, ?_⟩
      · rw [h1]
        exact foldl_setKey_getLast _ hne _ _
      · exact (mem_new_filings.mp (List.getLast_mem hne)).2
    · refine ⟨sentFor env c (new_filings state c df), h2, ?_⟩
      intro ν hν
      simp only [sentFor, List.mem_map] at hν
      obtain ⟨row, hrow, rfl⟩ := hν
      exact ⟨rfl, (mem_new_filings.mp hrow).2⟩

/-- Unfolding one step of the company loop. -/
theorem main_loop_cons_ok {env : Env} {state : CursorMap} {c : String}
    {l : List String} {rs rs' : RunState} :
    main_loop env state (c :: l) rs = .ok rs' ↔
      ∃ rsm, process_company env state c rs = .ok rsm ∧
        main_loop env state l rsm = .ok rs' := by
  rw [main_loop]
  cases hpc : process_company env state c rs with
  | error e => simp
  | ok rsm => simp

/-- Splitting the company loop at an append. -/
theorem main_loop_append_ok {env : Env} {state : CursorMap} :
    ∀ {l₁ l₂ : List String} {rs rs' : RunState},
      main_loop env state (l₁ ++ l₂) rs = .ok rs' ↔
        ∃ rsm, main_loop env state l₁ rs = .ok rsm ∧
          main_loop env state l₂ rsm = .ok rs' := by
  intro l₁
  induction l₁ with
  | nil =>
      intro l₂ rs rs'
      simp only [List.nil_append]
      constructor
      · intro h
        exact ⟨rs, rfl, h⟩
      · rintro ⟨rsm, hm, h⟩
        cases hm
        exact h
  | cons c t ih =>
      intro l₂ rs rs'
      constructor
      · intro h
        rw [List.cons_append, main_loop_cons_ok] at h
        obtain ⟨rsm, hpc, hml⟩ := h
        obtain ⟨rsm2, h1, h2⟩ := ih.mp hml
        exact ⟨rsm2, main_loop_cons_ok.mpr ⟨rsm, hpc, h1⟩, h2⟩
      · rintro ⟨rsm2, h1, h2⟩
        obtain ⟨rsm, hpc, hml⟩ := main_loop_cons_ok.mp h1
        rw [List.cons_append, main_loop_cons_ok]
        exact ⟨rsm, hpc, ih.mpr ⟨rsm2, hml, h2⟩⟩

/-- The loop over companies not containing `E` neither moves `E`'s cursor
entry nor sends anything for `E`. -/
theorem main_loop_frame {env : Env} {state : CursorMap} {E : String} :
    ∀ {l : List String} {rs rs' : RunState},
      main_loop env state l rs = .ok rs' → E ∉ l →
      rs'.updated_state E = rs.updated_state E ∧
      notifsFor rs'.sent E = notifsFor rs.sent E := by
  intro l
  induction l with
  | nil =>
      intro rs rs' h _
      cases h
      exact ⟨rfl, rfl⟩
  | cons c t ih =>
      intro rs rs' h hE
      obtain ⟨rsm, hpc, hml⟩ := main_loop_cons_ok.mp h
      have hEc : E ≠ c := fun hx => hE (hx ▸ List.mem_cons_self _ _)
      obtain ⟨hf, _, tail, hsent, htail⟩ := process_company_frame hpc
      obtain ⟨ih1, ih2⟩ := ih hml (fun hmem => hE (List.mem_cons_of_mem _ hmem))
      refine ⟨by rw [ih1, hf E hEc], ?_⟩
      have hnil : notifsFor tail E = [] :=
        notifsFor_eq_nil tail (fun ν hν => (htail ν hν).1 ▸ (Ne.symm hEc))
      rw [ih2, hsent, notifsFor_append, hnil, List.append_nil]

/-- Every notification of a run is above the stored cursor of its entity. -/
theorem main_loop_sent_bound {env : Env} {state : CursorMap} :
    ∀ {l : List String} {rs rs' : RunState},
      main_loop env state l rs = .ok rs' →
      ∀ ν ∈ rs'.sent, ν ∈ rs.sent ∨
        (state ν.corp_name).getD defaultCursor < ν.rcept_no := by
  intro l
  induction l with
  | nil =>
      intro rs rs' h
      cases h
      exact fun ν hν => Or.inl hν
  | cons c t ih =>
      intro rs rs' h ν hν
      obtain ⟨rsm, hpc, hml⟩ := main_loop_cons_ok.mp h
      obtain ⟨_, _, tail, hsent, htail⟩ := process_company_frame hpc
      rcases ih hml ν hν with hmem | hbound
      · rw [hsent] at hmem
        rcases List.mem_append.mp hmem with hmem | hmem
        · exact Or.inl hmem
        · obtain ⟨hname, hb⟩ := htail ν hmem
          exact Or.inr (by rw [hname]; exact hb)
      · exact Or.inr hbound

/-- Over a whole loop, each cursor entry is untouched or strictly above the
stored (start-of-run) value of that entity. -/
theorem main_loop_entry_cases {env : Env} {state : CursorMap} :
    ∀ {l : List String} {rs rs' : RunState},
      main_loop env state l rs = .ok rs' →
      ∀ k, rs'.updated_state k = rs.updated_state k ∨
        ∃ v, rs'.updated_state k = some v ∧ (state k).getD defaultCursor < v := by
  intro l
  induction l with
  | nil =>
      intro rs rs' h
      cases h
      exact fun k => Or.inl rfl
  | cons c t ih =>
      intro rs rs' h k
      obtain ⟨rsm, hpc, hml⟩ := main_loop_cons_ok.mp h
      obtain ⟨hf, hc, _⟩ := process_company_frame hpc
      have hstep : rsm.updated_state k = rs.updated_state k ∨
          ∃ v, rsm.updated_state k = some v ∧ (state k).getD defaultCursor < v := by
        by_cases hk : k = c
        · subst hk
          exact hc
        · exact Or.inl (hf k hk)
      rcases ih hml k with h1 | h1
      · rw [h1]
        exact hstep
      · exact Or.inr h1

/-- If `E`'s own iteration is a skip, the whole loop leaves `E`'s entry and
trace alone, however often `E` occurs in the list. -/
theorem main_loop_skip_frame {env : Env} {state : CursorMap} {E : String}
    (hskip : env.corp_code E = none ∨
      ∃ code df, env.corp_code E = some code ∧
        get_recent_filings (env.listing code) = .ok df ∧ new_filings state E df = []) :
    ∀ {l : List String} {rs rs' : RunState},
      main_loop env state l rs = .ok rs' →
      rs'.updated_state E = rs.updated_state E ∧
      notifsFor rs'.sent E = notifsFor rs.sent E := by
  intro l
  induction l with
  | nil =>
      intro rs rs' h
      cases h
      exact ⟨rfl, rfl⟩
  | cons c t ih =>
      intro rs rs' h
      obtain ⟨rsm, hpc, hml⟩ := main_loop_cons_ok.mp h
      by_cases hc : c = E
      · subst hc
        have hrs : rsm = rs := by
          rw [process_company_skip hskip rs] at hpc
          exact (Except.ok.inj hpc).symm
        subst hrs
        exact ih hml
      · obtain ⟨hf, _, tail, hsent, htail⟩ := process_company_frame hpc
        obtain ⟨ih1, ih2⟩ := ih hml
        refine ⟨by rw [ih1, hf E (Ne.symm hc)], ?_⟩
        have hnil : notifsFor tail E = [] :=
          notifsFor_eq_nil tail (fun ν hν => (htail ν hν).1 ▸ hc)
        rw [ih2, hsent, notifsFor_append, hnil, List.append_nil]

/-- Every notification of a delivery batch carries its entity's name. -/
theorem sentFor_corp_name (env : Env) (c : String) (l : List Filing) :
    ∀ ν ∈ sentFor env c l, ν.corp_name = c := by
  intro ν hν
  simp only [sentFor, List.mem_map] at hν
  obtain ⟨row, _, rfl⟩ := hν
  rfl

/-- A nodup list splits at any member with the member on neither side. -/
theorem nodup_split {E : String} {l : List String} (hnd : l.Nodup) (hm : E ∈ l) :
    ∃ s t, l = s ++ E :: t ∧ E ∉ s ∧ E ∉ t := by
  obtain ⟨s, t, rfl⟩ := List.append_of_mem hm
  obtain ⟨_, hnd2, hdisj⟩ := List.nodup_append.mp hnd
  refine ⟨s, t, rfl, ?_, (List.nodup_cons.mp hnd2).1⟩
  intro hEs
  exact hdisj hEs (List.mem_cons_self _ _)

/-- In a `≤`-sorted list every element is at most the last one. -/
theorem pairwise_le_getLast :
    ∀ {l : List String} (hl : l ≠ []), l.Pairwise (· ≤ ·) →
      ∀ v ∈ l, v ≤ l.getLast hl := by
  intro l
  induction l with
  | nil => intro hl; exact absurd rfl hl
  | cons a t ih =>
      intro _ hp v hv
      obtain ⟨ha, hp'⟩ := List.pairwise_cons.mp hp
      cases t with
      | nil =>
          simp only [List.mem_singleton] at hv
          subst hv
          exact le_refl _
      | cons b t2 =>
          rw [List.getLast_cons (List.cons_ne_nil _ _)]
          rcases List.mem_cons.mp hv with rfl | hv2
          · exact ha _ (List.getLast_mem _)
          · exact ih (List.cons_ne_nil _ _) hp' v hv2

/-- Files whose names avoid `p` leave `p`'s entry alone when extracted. -/
theorem writeMembers_not_mem (p : String) :
    ∀ (ms : List (String × Text)) (fs : FS), (∀ m ∈ ms, m.1 ≠ p) →
      writeMembers ms fs p = fs p := by
  intro ms
  induction ms with
  | nil => intro fs _; rfl
  | cons m rest ih =>
      intro fs h
      simp only [writeMembers, List.foldl_cons] at ih ⊢
      rw [ih _ (fun x hx => h x (List.mem_cons_of_mem _ hx))]
      simp [Ne.symm (h m (List.mem_cons_self _ _))]

/-- Extracting the head member, then members avoiding its name, leaves the
head's content at the head's name. -/
theorem writeMembers_head (name : String) (t : Text) (rest : List (String × Text))
    (fs : FS) (h : ∀ m ∈ rest, m.1 ≠ name) :
    writeMembers ((name, t) :: rest) fs name = some t := by
  rw [writeMembers, List.foldl_cons]
  rw [show List.foldl (fun acc m => fun p => if p = m.1 then some m.2 else acc p)
      (fun p => if p = name then some t else fs p) rest =
      writeMembers rest (fun p => if p = name then some t else fs p) from rfl]
  rw [writeMembers_not_mem name rest _ h]
  simp

/-! ## Claim theorems -/

/-- C2. The candidate set is exactly the subsequence of the fetched
filing sequence with receipt identifier strictly greater than the entity's
cursor, order preserved; with no stored cursor the all-zeros default makes a
first-ever run select every (well-formed) filing of the window. -/
theorem c2_candidate_selection (state : CursorMap) (E : String) (df : List Filing) :
    List.Sublist (new_filings state E df) df ∧
    (∀ f, f ∈ new_filings state E df ↔
      f ∈ df ∧ (state E).getD defaultCursor < f.rcept_no) ∧
    (df.Pairwise rceptLE → (new_filings state E df).Pairwise rceptLE) ∧
    (state E = none → (∀ f ∈ df, realRceptNo f.rcept_no) →
      new_filings state E df = df) := by
  refine ⟨new_filings_sublist state E df, fun f => mem_new_filings,
    new_filings_pairwise, ?_⟩
  intro hnone hreal
  rw [new_filings]
  apply List.filter_eq_self.mpr
  intro row hrow
  rw [hnone]
  exact (strLT_iff _ _).mpr (defaultCursor_lt_of_real (hreal row hrow))

/-- C2 (witness). A never-seen entity picks up the whole window. -/
theorem c2_witness :
    new_filings (fun _ => none) "Acme Corp" [wF1, wF2] = [wF1, wF2] :=
  (c2_candidate_selection (fun _ => none) "Acme Corp" [wF1, wF2]).2.2.2 rfl (by decide)

/-- C4 (counterexample). The claim's "ends with the truncation marker
only when the input exceeds the budget" fails: an input that is itself the
marker (21 characters, far below the 15,000 budget) passes through unchanged
and hence ends with the marker without having been truncated. -/
theorem c4_counterexample :
    truncateForAI truncationMarker = truncationMarker ∧
    truncationMarker.length ≤ max_length ∧
    truncationMarker <:+ truncateForAI truncationMarker := by
  refine ⟨rfl, by decide, ?_⟩
  rw [truncateForAI_of_short (by decide)]

/-- C4 (amended). The output length never exceeds budget + marker
length; an input over budget is cut at the budget with the marker appended
(so it ends with the marker); an input at or below budget passes through
unchanged — so the output ends with the marker only if the input already
does. -/
theorem c4_truncation_bound (raw : Text) :
    (truncateForAI raw).length ≤ max_length + truncationMarker.length ∧
    (max_length < raw.length →
      truncateForAI raw = raw.take max_length ++ truncationMarker ∧
      truncationMarker <:+ truncateForAI raw) ∧
    (raw.length ≤ max_length → truncateForAI raw = raw) := by
  refine ⟨truncateForAI_length raw, fun h => ?_, truncateForAI_of_short⟩
  rw [truncateForAI_of_long h]
  exact ⟨rfl, raw.take max_length, rfl⟩

/-- C4 (amended, witness). A 15,001-character text is cut at 15,000 and
marked. -/
theorem c4_witness :
    truncateForAI (List.replicate 15001 'a') =
      List.replicate 15000 'a' ++ truncationMarker := by
  have h := (c4_truncation_bound (List.replicate 15001 'a')).2.1
    (by rw [List.length_replicate]; norm_num [max_length])
  rw [h.1, List.take_replicate]
  norm_num [max_length]

/-- C5. An entity whose code does not resolve, whose frame is empty, or
none of whose filings exceed its cursor, ends a completed run with its
cursor entry exactly as at run start and with no notification sent for it. -/
theorem c5_skip_is_frame (env : Env) (state : CursorMap) (companies : List String)
    (rs : RunState) (E : String)
    (hrun : DartMonitor.main env state companies = .ok rs)
    (hskip : env.corp_code E = none ∨
      ∃ code df, env.corp_code E = some code ∧
        get_recent_filings (env.listing code) = .ok df ∧
        (df = [] ∨ new_filings state E df = [])) :
    rs.updated_state E = state E ∧ notifsFor rs.sent E = [] := by
  rw [DartMonitor.main] at hrun
  have hskip' : env.corp_code E = none ∨
      ∃ code df, env.corp_code E = some code ∧
        get_recent_filings (env.listing code) = .ok df ∧ new_filings state E df = [] := by
    rcases hskip with h | ⟨code, df, hcode, hdf, hdf0 | hnf⟩
    · exact Or.inl h
    · subst hdf0
      exact Or.inr ⟨code, [], hcode, hdf, rfl⟩
    · exact Or.inr ⟨code, df, hcode, hdf, hnf⟩
  obtain ⟨h1, h2⟩ := main_loop_skip_frame hskip' hrun
  exact ⟨h1, by rw [h2]; rfl⟩

/-- C5 (witness). The spec's second scenario: cursor already at the
larger identifier, so zero candidates, zero notifications, cursor
untouched. -/
theorem c5_witness :
    (RunState.mk (fun n => if n = "Acme Corp" then some "20240101000020" else none) []).updated_state "Acme Corp" =
      (fun n => if n = "Acme Corp" then some "20240101000020" else none : CursorMap) "Acme Corp" ∧
    notifsFor (RunState.mk (fun n => if n = "Acme Corp" then some "20240101000020" else none) []).sent "Acme Corp" = [] :=
  c5_skip_is_frame wEnv (fun n => if n = "Acme Corp" then some "20240101000020" else none)
    ["Acme Corp"]
    (RunState.mk (fun n => if n = "Acme Corp" then some "20240101000020" else none) [])
    "Acme Corp" rfl
    (Or.inr ⟨"00123456", [wF1, wF2], rfl, rfl, Or.inr (by decide)⟩)

/-- C6 (counterexample). A successful (status `000`) response with an
empty filing list does not make `get_recent_filings` return at all: the
column access `df['rcept_dt']` on the empty DataFrame raises `KeyError`,
which nothing catches. -/
theorem c6_counterexample :
    get_recent_filings (.ok ⟨"000", []⟩) = .error .pandasKeyError := rfl

/-- C6 (amended). For every successful response with a non-empty filing
list, `get_recent_filings` returns exactly those filings sorted ascending by
receipt identifier. -/
theorem c6_sorted_listing (data : ListResponse)
    (hst : data.status = "000") (hne : data.list ≠ []) :
    ∃ l, get_recent_filings (.ok data) = .ok l ∧
      l.Pairwise rceptLE ∧ l.Perm data.list := by
  refine ⟨sortFilings data.list, ?_, List.sorted_insertionSort rceptLE data.list,
    List.perm_insertionSort rceptLE data.list⟩
  rw [get_recent_filings, if_pos hst, if_neg (by simpa using hne)]

/-- C6 (amended, witness). The out-of-order two-row response comes back
sorted. -/
theorem c6_witness :
    ∃ l, get_recent_filings (.ok ⟨"000", [wF2, wF1]⟩) = .ok l ∧
      l.Pairwise rceptLE ∧ l.Perm [wF2, wF1] :=
  c6_sorted_listing ⟨"000", [wF2, wF1]⟩ rfl (by decide)

/-- C7. When extraction or summarization fails for a filing, the
component returns an error placeholder string instead of raising, that
placeholder flows into the prompt and the notification, the notification is
still sent, and the cursor still advances to the filing's identifier. -/
theorem c7_degraded_delivery (env : Env) (row : Filing) (c : String) (rs : RunState)
    (htel : env.telegram (notifyMessage row (analyze_content env row)) = .ok) :
    ((∀ xml, env.document row.rcept_no ≠ .ok xml) →
      (∃ e, fetch_and_extract_dart_content env row.rcept_no = errNetwork e) ∨
      fetch_and_extract_dart_content env row.rcept_no = errBadZip ∨
      (∃ e, fetch_and_extract_dart_content env row.rcept_no = errUnknown e)) ∧
    (∀ e, env.ai (prompt_text row
        (truncateForAI (fetch_and_extract_dart_content env row.rcept_no))) = .error e →
      analyze_content env row = errAIFailed e) ∧
    truncateForAI (fetch_and_extract_dart_content env row.rcept_no) <:+:
      prompt_text row (truncateForAI (fetch_and_extract_dart_content env row.rcept_no)) ∧
    analyze_content env row <:+ notifyMessage row (analyze_content env row) ∧
    process_filings env c [row] rs =
      .ok { updated_state := setKey rs.updated_state c row.rcept_no
            sent := rs.sent ++ [{ corp_name := c, rcept_no := row.rcept_no,
                                  message := notifyMessage row (analyze_content env row) }] } ∧
    setKey rs.updated_state c row.rcept_no c = some row.rcept_no := by
  refine ⟨?_, ?_, content_infix_prompt row _, ai_result_suffix_message row _, ?_, by simp [setKey]⟩
  · intro hfail
    rw [fetch_and_extract_dart_content]
    cases hdoc : env.document row.rcept_no with
    | ok xml => exact absurd hdoc (hfail xml)
    | requestException e => exact Or.inl ⟨e, rfl⟩
    | badZipFile => exact Or.inr (Or.inl rfl)
    | otherError e => exact Or.inr (Or.inr ⟨e, rfl⟩)
  · intro e he
    rw [analyze_content]
    simp only [he]
  · rw [process_filings]
    simp only [send_telegram, htel]
    rfl

/-- C7 (witness). With a bad archive and a failing AI backend, the
placeholder analysis is composed and delivery still advances the cursor. -/
theorem c7_witness :
    analyze_content wEnv wF1 = errAIFailed "backend down".data ∧
    fetch_and_extract_dart_content wEnv wF1.rcept_no = errBadZip ∧
    process_filings wEnv "Acme Corp" [wF1] (RunState.mk wState []) =
      .ok (RunState.mk (setKey wState "Acme Corp" wF1.rcept_no)
        [{ corp_name := "Acme Corp", rcept_no := wF1.rcept_no,
           message := notifyMessage wF1 (analyze_content wEnv wF1) }]) :=
  have h := c7_degraded_delivery wEnv wF1 "Acme Corp" (RunState.mk wState []) rfl
  ⟨h.2.1 "backend down".data rfl, rfl, h.2.2.2.2.1⟩

/-- C8 (counterexample). The refresh does not unpack to a separate
temporary location: `extractall` writes into the data directory under the
member names. An archive with a member named exactly `corp_codes.xml`
leaves the snapshot path clobbered by a *failing* refresh: if that member
was already fully written when a later member failed, the snapshot holds
its content; and if that member is itself the failing one, `zipfile` had
already opened the snapshot path `"wb"` (truncating it) before the
CRC/IO error raised mid-copy, leaving a partial file. Either way the
previously cached snapshot is not unchanged on failure. -/
theorem c8_counterexample :
    update_corp_code_file
        (.archive [(CORP_CODE_FILE, "BROKEN".data), ("SECOND.xml", "x".data)]
          (some (1, some "y".data)))
        (fun p => if p = CORP_CODE_FILE then some "OLD".data else none)
        CORP_CODE_FILE = some "BROKEN".data ∧
    update_corp_code_file
        (.archive [(CORP_CODE_FILE, "FULL".data)] (some (0, some "PART".data)))
        (fun p => if p = CORP_CODE_FILE then some "OLD".data else none)
        CORP_CODE_FILE = some "PART".data ∧
    ("BROKEN".data : Text) ≠ "OLD".data ∧ ("PART".data : Text) ≠ "OLD".data :=
  ⟨rfl, rfl, by decide, by decide⟩

/-- C8 (amended). Provided no archive member at all is named
`corp_codes.xml`, any failing refresh (request/HTTP/ZIP error before
extraction, or an exception at any point during extraction — including the
truncation/partial write of the failing member's own target) leaves the
snapshot file unchanged; on full success the first member is renamed onto
the snapshot path, so the snapshot is replaced only then. -/
theorem c8_snapshot_guard (fs : FS) (members : List (String × Text))
    (hname : ∀ m ∈ members, m.1 ≠ CORP_CODE_FILE) :
    update_corp_code_file .raise fs CORP_CODE_FILE = fs CORP_CODE_FILE ∧
    (∀ (k : Nat) (part : Option Text),
      update_corp_code_file (.archive members (some (k, part))) fs CORP_CODE_FILE =
        fs CORP_CODE_FILE) ∧
    (∀ name t rest, members = (name, t) :: rest → (∀ m ∈ rest, m.1 ≠ name) →
      update_corp_code_file (.archive members none) fs CORP_CODE_FILE = some t) := by
  refine ⟨rfl, ?_, ?_⟩
  · intro k part
    have hw : writeMembers (members.take k) fs CORP_CODE_FILE = fs CORP_CODE_FILE :=
      writeMembers_not_mem CORP_CODE_FILE _ fs
        (fun m hm2 => hname m (List.mem_of_mem_take hm2))
    cases hm : members[k]? with
    | none =>
        cases part with
        | none => simp only [update_corp_code_file, hm]; exact hw
        | some bytes => simp only [update_corp_code_file, hm]; exact hw
    | some m =>
        cases part with
        | none => simp only [update_corp_code_file, hm]; exact hw
        | some bytes =>
            simp only [update_corp_code_file, hm]
            rw [if_neg (Ne.symm (hname m (List.getElem?_mem hm)))]
            exact hw
  · intro name t rest hm hrest
    subst hm
    simp only [update_corp_code_file, List.head?]
    rw [renameFile]
    exact writeMembers_head name t rest fs hrest

/-- C8 (amended, witness). A refresh failing while writing the (differently
named) sole member leaves no snapshot; the same archive fully extracted
installs it. -/
theorem c8_witness :
    update_corp_code_file
        (.archive [("CORPCODE.xml", "codes".data)] (some (0, some "par".data)))
        (fun _ => none) CORP_CODE_FILE = none ∧
    update_corp_code_file (.archive [("CORPCODE.xml", "codes".data)] none)
        (fun _ => none) CORP_CODE_FILE = some "codes".data :=
  have h := c8_snapshot_guard (fun _ => none) [("CORPCODE.xml", "codes".data)] (by decide)
  ⟨h.2.1 0 (some "par".data), h.2.2 "CORPCODE.xml" "codes".data [] rfl (by simp)⟩

/-- C9 (counterexample). A raised exception of the listing request is
not caught inside `get_recent_filings` and aborts the whole run; likewise a
raised exception of the notification POST aborts the run from inside the
delivery loop. This contradicts "converted to fallback text or an empty
result, and never propagate out to abort the run". -/
theorem c9_counterexample :
    get_recent_filings .raise = .error .listingException ∧
    DartMonitor.main cEnvListingRaise (fun _ => none) ["Acme Corp"] =
      .error .listingException ∧
    DartMonitor.main cEnvTelegramRaise (fun _ => none) ["Acme Corp"] =
      .error .telegramException :=
  ⟨rfl, rfl, rfl⟩

/-- C9 (amended). Error *responses* are converted: a non-success listing
status yields the empty frame, extraction failures yield placeholder
strings, AI failures yield the failure placeholder. But raised exceptions of
the listing request and of the notification POST are not caught and
propagate, aborting the run. -/
theorem c9_error_conversion :
    (∀ data : ListResponse, data.status ≠ "000" →
      get_recent_filings (.ok data) = .ok []) ∧
    (∀ (env : Env) (rcept : String) (e : Text),
      env.document rcept = .requestException e →
      fetch_and_extract_dart_content env rcept = errNetwork e) ∧
    (∀ (env : Env) (row : Filing) (e : Text),
      env.ai (prompt_text row
        (truncateForAI (fetch_and_extract_dart_content env row.rcept_no))) = .error e →
      analyze_content env row = errAIFailed e) ∧
    get_recent_filings .raise = .error .listingException ∧
    (∀ (env : Env) (m : Text), env.telegram m = .raise →
      send_telegram env m = .error .telegramException) := by
  refine ⟨?_, ?_, ?_, rfl, ?_⟩
  · intro data h
    rw [get_recent_filings, if_neg h]
  · intro env rcept e h
    rw [fetch_and_extract_dart_content, h]
  · intro env row e h
    rw [analyze_content]
    simp only [h]
  · intro env m h
    rw [send_telegram, h]

/-- C9 (amended, witness). A `013` (no data) status comes back as the
empty frame; a raising POST propagates as the telegram exception. -/
theorem c9_witness :
    get_recent_filings (.ok ⟨"013", []⟩) = .ok [] ∧
    send_telegram cEnvTelegramRaise [] = .error .telegramException :=
  have h := c9_error_conversion
  ⟨h.1 ⟨"013", []⟩ (by decide), h.2.2.2.2 cEnvTelegramRaise [] rfl⟩

/-- C10. A run that reaches persistence keeps every entry of the loaded
cursor mapping: entries are only added or increased (each write is strictly
above the entity's stored start-of-run cursor), and entities off the watch
list keep their entries verbatim. -/
theorem c10_entries_preserved (env : Env) (state : CursorMap)
    (companies : List String) (rs : RunState)
    (hrun : DartMonitor.main env state companies = .ok rs) :
    (∀ k, rs.updated_state k = state k ∨
      ∃ v, rs.updated_state k = some v ∧ (state k).getD defaultCursor < v) ∧
    (∀ k v, state k = some v → ∃ w, rs.updated_state k = some w ∧ v ≤ w) ∧
    (∀ k, k ∉ companies → rs.updated_state k = state k) := by
  rw [DartMonitor.main] at hrun
  have h1 := main_loop_entry_cases hrun
  refine ⟨h1, ?_, ?_⟩
  · intro k v hkv
    rcases h1 k with h | ⟨w, hw, hlt⟩
    · exact ⟨v, by rw [h]; exact hkv, le_refl v⟩
    · refine ⟨w, hw, ?_⟩
      rw [hkv] at hlt
      exact le_of_lt hlt
  · intro k hk
    exact (main_loop_frame hrun hk).1

/-- C1. For an entity `E` with stored cursor `C` and candidate filings
`F1 < … < Fn` (all above `C`), a clean run processes them in ascending
order; after each candidate's notification the in-memory cursor for `E`
equals that candidate's identifier (not the batch maximum in one step), and
the cursor persisted at end of run equals `Fn`'s identifier. -/
theorem c1_per_candidate_cursor_advance
    (env : Env) (state : CursorMap) (pre post : List String) (E code : String)
    (df : List Filing) (rs : RunState)
    (hcode : env.corp_code E = some code)
    (hdf : get_recent_filings (env.listing code) = .ok df)
    (hne : new_filings state E df ≠ [])
    (htel : ∀ m, env.telegram m = .ok)
    (hpre : E ∉ pre) (hpost : E ∉ post)
    (hrun : DartMonitor.main env state (pre ++ E :: post) = .ok rs) :
    (∀ (rs₀ : RunState) (l₁ l₂ : List Filing) (row : Filing),
      new_filings state E df = l₁ ++ row :: l₂ →
      ∃ rs₁, process_filings env E (l₁ ++ [row]) rs₀ = .ok rs₁ ∧
        rs₁.updated_state E = some row.rcept_no) ∧
    notifsFor rs.sent E = sentFor env E (new_filings state E df) ∧
    rs.updated_state E = some ((new_filings state E df).getLast hne).rcept_no := by
  constructor
  · intro rs₀ l₁ l₂ row _
    obtain ⟨rs₁, h⟩ := process_filings_total htel E (l₁ ++ [row]) rs₀
    refine ⟨rs₁, h, ?_⟩
    obtain ⟨h1, _⟩ := process_filings_ok_eq h
    rw [h1, foldl_setKey_getLast (l₁ ++ [row]) (by simp) _ E, List.getLast_concat]
  · rw [DartMonitor.main] at hrun
    obtain ⟨rs1, hpre_run, hrest⟩ := main_loop_append_ok.mp hrun
    obtain ⟨rsm, hpc, hpost_run⟩ := main_loop_cons_ok.mp hrest
    rw [process_company_clean hcode hdf hne] at hpc
    obtain ⟨hu, hs⟩ := process_filings_ok_eq hpc
    obtain ⟨hpre1, hpre2⟩ := main_loop_frame hpre_run hpre
    obtain ⟨hpost1, hpost2⟩ := main_loop_frame hpost_run hpost
    have hpre2n : notifsFor rs1.sent E = [] := by rw [hpre2]; rfl
    constructor
    · rw [hpost2, hs, notifsFor_append, hpre2n, List.nil_append]
      exact notifsFor_eq_self _ (sentFor_corp_name env E _)
    · rw [hpost1, hu, foldl_setKey_getLast _ hne _ E]

/-- C1 (witness). The spec's first scenario: cursor `…005`, filings
`…010` and `…020` both new, delivered in order, final cursor `…020`. -/
theorem c1_witness :
    DartMonitor.main wEnv wState ["Acme Corp"] = .ok wRS ∧
    wRS.updated_state "Acme Corp" = some "20240101000020" :=
  have h := c1_per_candidate_cursor_advance wEnv wState [] [] "Acme Corp" "00123456"
    [wF1, wF2] wRS rfl rfl (by decide) (fun _ => rfl) (by simp) (by simp) rfl
  ⟨rfl, h.2.2.trans (by decide)⟩

/-- C3. Cursor entries never decrease over a run: every delivery for `E`
writes an identifier strictly above `E`'s stored start-of-run cursor, the
sequence of written identifiers is non-decreasing, and the persisted entry
is either untouched or the maximum identifier delivered for `E` this run. -/
theorem c3_cursor_monotone
    (env : Env) (state : CursorMap) (companies : List String) (rs : RunState)
    (E : String) (hnd : companies.Nodup)
    (hrun : DartMonitor.main env state companies = .ok rs) :
    (∀ ν ∈ rs.sent, ν.corp_name = E →
      (state E).getD defaultCursor < ν.rcept_no) ∧
    (deliveredFor rs.sent E).Pairwise (· ≤ ·) ∧
    (deliveredFor rs.sent E = [] → rs.updated_state E = state E) ∧
    (∀ h : deliveredFor rs.sent E ≠ [],
      rs.updated_state E = some ((deliveredFor rs.sent E).getLast h) ∧
      ∀ v ∈ deliveredFor rs.sent E, v ≤ (deliveredFor rs.sent E).getLast h) := by
  rw [DartMonitor.main] at hrun
  have hbound : ∀ ν ∈ rs.sent, ν.corp_name = E →
      (state E).getD defaultCursor < ν.rcept_no := by
    intro ν hν hE
    rcases main_loop_sent_bound hrun ν hν with h | h
    · exact absurd h (List.not_mem_nil ν)
    · rw [hE] at h
      exact h
  refine ⟨hbound, ?_⟩
  by_cases hmem : E ∈ companies
  · obtain ⟨s, t, rfl, hEs, hEt⟩ := nodup_split hnd hmem
    obtain ⟨rs1, hs_run, hrest⟩ := main_loop_append_ok.mp hrun
    obtain ⟨rsm, hpc, ht_run⟩ := main_loop_cons_ok.mp hrest
    obtain ⟨hpre1, hpre2⟩ := main_loop_frame hs_run hEs
    obtain ⟨hpost1, hpost2⟩ := main_loop_frame ht_run hEt
    have hpre2n : notifsFor rs1.sent E = [] := by rw [hpre2]; rfl
    have hpre1s : rs1.updated_state E = state E := by rw [hpre1]
    rcases process_company_ok_inv hpc with rfl | ⟨code, df, hcode, hdf, hne, hpf⟩
    · have hdel : deliveredFor rs.sent E = [] := by
        rw [deliveredFor, hpost2, hpre2n]
        rfl
      refine ⟨by rw [hdel]; exact List.Pairwise.nil,
        fun _ => by rw [hpost1, hpre1s], fun h => absurd hdel h⟩
    · obtain ⟨hu, hsent⟩ := process_filings_ok_eq hpf
      have hsorted : (new_filings state E df).Pairwise rceptLE :=
        new_filings_pairwise (get_recent_filings_pairwise hdf)
      have hdel : deliveredFor rs.sent E =
          (new_filings state E df).map (·.rcept_no) := by
        rw [deliveredFor, hpost2, hsent, notifsFor_append, hpre2n, List.nil_append,
          notifsFor_eq_self _ (sentFor_corp_name env E _), sentFor, List.map_map]
        rfl
      have hdelne : deliveredFor rs.sent E ≠ [] := by
        rw [hdel]
        simpa using hne
      have hfinal : rs.updated_state E = some ((new_filings state E df).getLast hne).rcept_no := by
        rw [hpost1, hu, foldl_setKey_getLast _ hne _ E]
      have hdelsorted : (deliveredFor rs.sent E).Pairwise (· ≤ ·) := by
        rw [hdel]
        exact hsorted.map _ (fun a b hab => hab)
      refine ⟨hdelsorted, fun h0 => absurd h0 hdelne, fun h => ⟨?_, ?_⟩⟩
      · have hq : some ((deliveredFor rs.sent E).getLast h) =
            some (((new_filings state E df).getLast hne).rcept_no) := by
          rw [← List.getLast?_eq_getLast _ h, hdel,
            List.getLast?_eq_getLast _ (by simpa using hne), List.getLast_map]
        rw [hfinal]
        exact hq.symm
      · intro v hv
        exact pairwise_le_getLast h hdelsorted v hv
  · obtain ⟨h1, h2⟩ := main_loop_frame hrun hmem
    have hdel : deliveredFor rs.sent E = [] := by
      rw [deliveredFor, h2]
      rfl
    refine ⟨by rw [hdel]; exact List.Pairwise.nil, fun _ => by rw [h1],
      fun h => absurd hdel h⟩

/-- C3 (witness). Both deliveries are above the stored cursor, in
non-decreasing order, and the final entry is the delivered maximum. -/
theorem c3_witness :
    (deliveredFor wRS.sent "Acme Corp").Pairwise (· ≤ ·) ∧
    wRS.updated_state "Acme Corp" =
      some ((deliveredFor wRS.sent "Acme Corp").getLast (by decide)) :=
  have h := c3_cursor_monotone wEnv wState ["Acme Corp"] wRS "Acme Corp" (by simp) rfl
  ⟨h.2.1, (h.2.2.2 (by decide)).1⟩

/-- C10 (witness). The off-list entity keeps its (absent) entry; the
watched entity's entry only increased. -/
theorem c10_witness :
    wRS.updated_state "Beta Corp" = wState "Beta Corp" ∧
    ∃ w, wRS.updated_state "Acme Corp" = some w ∧ "20240101000005" ≤ w :=
  have h := c10_entries_preserved wEnv wState ["Acme Corp"] wRS rfl
  ⟨h.2.2 "Beta Corp" (by decide), h.2.1 "Acme Corp" "20240101000005" rfl⟩

end DartMonitor
